import Mathlib

/-!
Verification of the detection-and-deduplication engine of the bags.fm
token-launch notification bot.

The development shallowly embeds the TypeScript sources:
* `DatabaseManager` (ledger store: `migrationExistsByDetails`, `saveMigration`,
  `clearDatabase`, `initialize`),
* `BagsFmScraper` (record normalizer, in its two source variants:
  the `getNewMigrations` parser with a qualification filter, and the
  `fetchMigrations` parser without one),
* `BagsFmBot.checkForNewMigrations` (the polling cycle).

Modelling conventions: timestamps are natural numbers of milliseconds;
JS numbers are rationals; optional upstream fields are `Option`s, with `none`
standing for an absent (or JS-falsy empty-string) value; `Date.now()` and
`Math.random()` are explicit parameters.  Mutation of `this.data` is explicit
state passing, and the durable JSON file is a `StorageContent` value threaded
alongside the in-memory state.
-/

/-- Canonical token (`MigratedToken` in `src/types/index.ts`).  Presentational
string constants (`fromChain`, `url`, `image`, social links) are carried
opaquely by the source and omitted here; `toChain` is kept because the
`getNewMigrations` variant computes it from the qualification signals. -/
structure MigratedToken where
  id : String
  name : String
  symbol : String
  contractAddress : Option String
  migrationDate : Nat
  createdAt : Nat
  toChain : String
  marketCap : Option ℚ
  price : Option ℚ
  volume24h : Option ℚ
  totalRaised : Option ℚ
  bondingDuration : Option ℚ
  bondingCompleted : Bool
deriving DecidableEq

/-- The serialized ledger state (`DatabaseData` in `DatabaseManager.ts`):
the list of recorded migrations plus a `lastUpdated` timestamp. -/
structure DatabaseData where
  migrations : List MigratedToken
  lastUpdated : Nat
deriving DecidableEq

/-- Content of the durable JSON file backing the ledger: absent, unparsable,
or a parsed `DatabaseData` snapshot. -/
inductive StorageContent where
  | missing : StorageContent
  | malformed : StorageContent
  | valid : DatabaseData → StorageContent
deriving DecidableEq

/-- A `DatabaseManager` instance: the in-memory `this.data` together with the
current content of the durable file at `this.dbPath`. -/
structure DatabaseManager where
  data : DatabaseData
  storage : StorageContent
deriving DecidableEq

/-- JS `toLowerCase`, modelled as a character-wise lowering of the string's
character list (extensionally the standard library's string lowering on the
ASCII range the source compares, but kernel-computable). -/
def strLower (s : String) : String :=
  String.mk (s.data.map Char.toLower)

/-- Tier 1 of `DatabaseManager.migrationExistsByDetails` (part_002 lines
98-109): the token has a (truthy) contract address and some recorded migration
has a (truthy) contract address equal to it case-insensitively. -/
def existsByContract (d : DatabaseData) (t : MigratedToken) : Bool :=
  match t.contractAddress with
  | none => false
  | some ca =>
    d.migrations.any fun m =>
      match m.contractAddress with
      | none => false
      | some mca => strLower mca == strLower ca

/-- Tier 2 of `DatabaseManager.migrationExistsByDetails` (part_002 lines
111-120): some recorded migration has the same symbol AND name
case-insensitively.  The source applies this check to every token, not only to
tokens lacking a contract address. -/
def existsBySymbolName (d : DatabaseData) (t : MigratedToken) : Bool :=
  d.migrations.any fun m =>
    strLower m.symbol == strLower t.symbol && strLower m.name == strLower t.name

/-- Tier 3 of `DatabaseManager.migrationExistsByDetails` (part_002 lines
122-130): some recorded migration has the same id. -/
def existsById (d : DatabaseData) (t : MigratedToken) : Bool :=
  d.migrations.any fun m => m.id == t.id

/-- `DatabaseManager.migrationExistsByDetails` (part_002 lines 96-137):
the three tiers tried in order, short-circuiting on the first hit. -/
def migrationExistsByDetails (d : DatabaseData) (t : MigratedToken) : Bool :=
  existsByContract d t || existsBySymbolName d t || existsById d t

/-- Comparator of `saveMigration`'s sort (part_002 lines 74-77): descending by
`migrationDate` (the JS comparator returns `b - a`). -/
def laterMigrationFirst (a b : MigratedToken) : Bool :=
  decide (b.migrationDate ≤ a.migrationDate)

/-- `DatabaseManager.saveData` (part_002 lines 53-61): stamps `lastUpdated`
with the current time and writes the whole state to the durable file. -/
def saveData (now : Nat) (st : DatabaseManager) : DatabaseManager :=
  let d : DatabaseData := { st.data with lastUpdated := now }
  { data := d, storage := .valid d }

/-- `DatabaseManager.saveMigration` (part_002 lines 63-85): drop any recorded
migration with the same id, append the new one, sort by `migrationDate`
descending, and flush via `saveData`. -/
def saveMigration (now : Nat) (st : DatabaseManager) (t : MigratedToken) :
    DatabaseManager :=
  let kept := st.data.migrations.filter fun m => !(m.id == t.id)
  let sorted := (kept ++ [t]).mergeSort laterMigrationFirst
  saveData now { st with data := { st.data with migrations := sorted } }

/-- `DatabaseManager.clearDatabase` (part_002 lines 193-205): reset to the
empty state and flush. -/
def clearDatabase (now : Nat) (st : DatabaseManager) : DatabaseManager :=
  saveData now { st with data := { migrations := [], lastUpdated := now } }

/-- `DatabaseManager.initialize` (part_002 lines 25-51).  Reading the durable
file yields either a parsed snapshot (kept as `this.data`, nothing written) or
a read/parse failure, in which case the constructor's empty state is kept and
`saveData` writes a fresh snapshot.  `writeOk` models whether that write (and
the directory setup) succeeds; when it fails, `saveData` throws and the outer
catch rethrows to the caller, modelled as `Except.error`. -/
def initDatabase (writeOk : Bool) (now : Nat) (c : StorageContent) :
    Except Unit DatabaseManager :=
  match c with
  | .valid d => .ok { data := d, storage := c }
  | _ =>
    if writeOk then
      let d : DatabaseData := { migrations := [], lastUpdated := now }
      .ok { data := d, storage := .valid d }
    else
      .error ()

/-- The per-launch loop of `BagsFmBot.checkForNewMigrations` (BagsFmBot.ts
lines 142-148): for each fetched launch in order, skip it when
`migrationExistsByDetails` hits, otherwise `saveMigration` it and collect it
into `newMigrations`.  Returns the final manager state and the collected
list (the tokens subsequently notified, lines 150-157). -/
def checkLoop (now : Nat) : DatabaseManager → List MigratedToken →
    DatabaseManager × List MigratedToken
  | st, [] => (st, [])
  | st, t :: rest =>
    if migrationExistsByDetails st.data t then
      checkLoop now st rest
    else
      let res := checkLoop now (saveMigration now st t) rest
      (res.1, t :: res.2)

/-- `BagsFmBot.checkForNewMigrations` (BagsFmBot.ts lines 135-162) for a fixed
fetch result `launches`: the exists-check/record/collect loop followed by one
notification per collected token.  Notifications do not touch the ledger, so
the cycle's observable effect is the final state plus the notified list. -/
def checkForNewMigrations (now : Nat) (st : DatabaseManager)
    (launches : List MigratedToken) : DatabaseManager × List MigratedToken :=
  checkLoop now st launches

/-- The `bondingCurve` sub-object of a raw API record (`BagsApiToken` in
BagsFmScraper.ts lines 21-26). -/
structure BondingCurve where
  completed : Bool
  progress : ℚ
  completedAt : Option Nat
  totalRaised : Option ℚ
deriving DecidableEq

/-- A raw upstream record (`BagsApiToken`, BagsFmScraper.ts lines 5-33).
String timestamp fields are modelled as `Option Nat` instants, `none` standing
for an absent or empty (JS-falsy) value; numeric fields as `Option ℚ`;
the optional boolean flags `migrated`/`launched` as `Bool` (absent = falsy).
Presentational fields (description, image, creator, social links) are unused
by the logic under verification and omitted. -/
structure BagsApiToken where
  tokenAddress : Option String
  name : Option String
  symbol : Option String
  createdAt : Option Nat
  migratedAt : Option Nat
  launchedAt : Option Nat
  bondingCompletedAt : Option Nat
  completedAt : Option Nat
  marketCap : Option ℚ
  price : Option ℚ
  volume24h : Option ℚ
  totalRaised : Option ℚ
  fundingGoal : Option ℚ
  bondingCurve : Option BondingCurve
  migrated : Bool
  launched : Bool
deriving DecidableEq

/-- JS truthiness of an optional number: `undefined` and `0` are falsy. -/
def jsTruthyQ : Option ℚ → Bool
  | none => false
  | some v => !(v == 0)

/-- Market-cap derivation (BagsFmScraper.ts lines 118-123 and 326-331):
`let marketCap = token.marketCap; if (!marketCap && token.price)
marketCap = token.price * 1000000000`.  The guards are JS truthiness, so a
present-but-zero `marketCap` is overwritten and a present-but-zero `price`
does not trigger the derivation. -/
def deriveMarketCap (mc price : Option ℚ) : Option ℚ :=
  if !jsTruthyQ mc && jsTruthyQ price then price.map (· * 1000000000) else mc

/-- `token.bondingCurve?.completed` (false when `bondingCurve` is absent). -/
def bcCompleted (r : BagsApiToken) : Bool :=
  match r.bondingCurve with
  | none => false
  | some bc => bc.completed

/-- `token.bondingCurve?.completedAt` (absent when `bondingCurve` is). -/
def bcCompletedAt (r : BagsApiToken) : Option Nat :=
  match r.bondingCurve with
  | none => none
  | some bc => bc.completedAt

/-- `token.bondingCurve?.totalRaised` (absent when `bondingCurve` is). -/
def bcTotalRaised (r : BagsApiToken) : Option ℚ :=
  match r.bondingCurve with
  | none => none
  | some bc => bc.totalRaised

/-- Bonding-completion signal (BagsFmScraper.ts lines 128-132):
`token.bondingCurve?.completed || token.migrated || token.migratedAt ||
token.bondingCompletedAt || token.completedAt`. -/
def hasCompletedBonding (r : BagsApiToken) : Bool :=
  bcCompleted r || r.migrated || r.migratedAt.isSome ||
    r.bondingCompletedAt.isSome || r.completedAt.isSome

/-- Market-cap threshold signal (BagsFmScraper.ts line 134):
`marketCap && marketCap >= 100000`, applied to the derived market cap. -/
def hasCrossed100kMcap : Option ℚ → Bool
  | none => false
  | some v => !(v == 0) && decide ((100000 : ℚ) ≤ v)

/-- Qualification test of the `getNewMigrations` parser (BagsFmScraper.ts
lines 125-140): a token is kept iff it has a bonding-completion signal or its
derived market cap crossed the 100k threshold. -/
def qualifiesForNotify (r : BagsApiToken) : Bool :=
  hasCompletedBonding r || hasCrossed100kMcap (deriveMarketCap r.marketCap r.price)

/-- Migration-date resolution (BagsFmScraper.ts lines 150-176 and 334-360):
the if/else-if chain `bondingCurve?.completedAt` → `migratedAt` → `launchedAt`
→ `bondingCompletedAt` → `completedAt` → `createdAt`, defaulting to the
current time. -/
def resolveMigrationDate (now : Nat) (r : BagsApiToken) : Nat :=
  match bcCompletedAt r with
  | some d => d
  | none =>
    match r.migratedAt with
    | some d => d
    | none =>
      match r.launchedAt with
      | some d => d
      | none =>
        match r.bondingCompletedAt with
        | some d => d
        | none =>
          match r.completedAt with
          | some d => d
          | none =>
            match r.createdAt with
            | some d => d
            | none => now

/-- Modelled from the spec (§4.2): `qualificationTimestamp` is the first
present field in the priority list bonding-curve completion timestamp →
migration timestamp → launch timestamp → alternate completion-timestamp
fields → record creation timestamp, else the current time.  Stated
independently of the source's if/else-if chain so the two can be compared. -/
def specDatePriority (now : Nat) (r : BagsApiToken) : Nat :=
  (([bcCompletedAt r, r.migratedAt, r.launchedAt, r.bondingCompletedAt,
     r.completedAt, r.createdAt].findSome? id).getD now)

/-- Bonding-duration computation (BagsFmScraper.ts lines 178-182 and 362-366):
present only when the migration date is strictly after the creation date, and
then equal to their difference in hours. -/
def bondingDurationOf (created mig : Nat) : Option ℚ :=
  if created < mig then
    some (((mig : ℚ) - (created : ℚ)) / (1000 * 60 * 60))
  else
    none

/-- `token.totalRaised || token.bondingCurve?.totalRaised`
(BagsFmScraper.ts line 185). -/
def totalRaisedOf (r : BagsApiToken) : Option ℚ :=
  if jsTruthyQ r.totalRaised then r.totalRaised else bcTotalRaised r

/-- JS template interpolation of a possibly-undefined string. -/
def jsStr : Option String → String
  | some s => s
  | none => "undefined"

/-- `.replace(/[^a-zA-Z0-9]/g, '')` (BagsFmScraper.ts line 193):
keep only ASCII alphanumeric characters. -/
def stripNonAlnum (s : String) : String :=
  String.mk (s.data.filter Char.isAlphanum)

/-- The synthesized id of the `getNewMigrations` parser (BagsFmScraper.ts line
193): `` `token-${token.symbol}-${token.name}`.replace(/[^a-zA-Z0-9]/g, '') ``,
used when `tokenAddress` is falsy. -/
def synthesizedId (r : BagsApiToken) : String :=
  stripNonAlnum ("token-" ++ jsStr r.symbol ++ "-" ++ jsStr r.name)

/-- Normalization of one raw record by the `getNewMigrations` parser
(BagsFmScraper.ts lines 149-209), for a record that passed the qualification
test. -/
def parseOneToken (now : Nat) (r : BagsApiToken) : MigratedToken :=
  let marketCap := deriveMarketCap r.marketCap r.price
  let mig := resolveMigrationDate now r
  let cre := r.createdAt.getD now
  { id := match r.tokenAddress with
      | some a => a
      | none => synthesizedId r
    name := r.name.getD "Unknown Token"
    symbol := r.symbol.getD "UNKNOWN"
    contractAddress := r.tokenAddress
    migrationDate := mig
    createdAt := cre
    toChain := if hasCrossed100kMcap marketCap then "Bags.fm 100k+ Launch"
      else "Bags.fm Launch"
    marketCap := marketCap
    price := r.price
    volume24h := r.volume24h
    totalRaised := totalRaisedOf r
    bondingDuration := bondingDurationOf cre mig
    bondingCompleted := hasCompletedBonding r }

/-- The `getNewMigrations` variant of `parseTokenLaunches` (BagsFmScraper.ts
lines 106-219): each raw record is kept iff it qualifies (bonding signal or
derived market cap at/above 100k); non-qualifying records are skipped with
`continue`. -/
def parseTokenLaunches (now : Nat) : List BagsApiToken → List MigratedToken
  | [] => []
  | r :: rest =>
    if qualifiesForNotify r then
      parseOneToken now r :: parseTokenLaunches now rest
    else
      parseTokenLaunches now rest

/-- The ambient values read by the `fetchMigrations` parser while normalizing
one record: `new Date()` / `Date.now()` and the stringified `Math.random()`
draw. -/
structure JsEnv where
  now : Nat
  rnd : String
deriving DecidableEq

/-- Normalization of one raw record by the `fetchMigrations` variant of
`parseTokenLaunches` (BagsFmScraper.ts lines 324-404): no qualification
filter, no `bondingCompleted`/`toChain` signals, and a fallback id built from
`Date.now()` and `Math.random()` instead of symbol and name. -/
def parseOneTokenFM (env : JsEnv) (r : BagsApiToken) : MigratedToken :=
  let mig := resolveMigrationDate env.now r
  let cre := r.createdAt.getD env.now
  { id := match r.tokenAddress with
      | some a => a
      | none => "token-" ++ toString env.now ++ "-" ++ env.rnd
    name := r.name.getD "Unknown Token"
    symbol := r.symbol.getD "UNKNOWN"
    contractAddress := r.tokenAddress
    migrationDate := mig
    createdAt := cre
    toChain := "Bags.fm Launch"
    marketCap := deriveMarketCap r.marketCap r.price
    price := r.price
    volume24h := r.volume24h
    totalRaised := totalRaisedOf r
    bondingDuration := bondingDurationOf cre mig
    bondingCompleted := false }

/-- The `fetchMigrations` variant of `parseTokenLaunches` (BagsFmScraper.ts
lines 296-416): every successfully parsed record is included in the output;
`env i` supplies the ambient time/randomness for the record at index `i`. -/
def parseTokenLaunchesFM (env : Nat → JsEnv) (i : Nat) :
    List BagsApiToken → List MigratedToken
  | [] => []
  | r :: rest => parseOneTokenFM (env i) r :: parseTokenLaunchesFM env (i + 1) rest

/-- Ledger invariant: at most one recorded migration per id. -/
def uniqueIds (ms : List MigratedToken) : Prop :=
  ms.Pairwise fun a b => a.id ≠ b.id

/-- Ledger invariant: recorded migrations sorted by `migrationDate`
descending (newest first). -/
def sortedByDateDesc (ms : List MigratedToken) : Prop :=
  ms.Pairwise fun a b => b.migrationDate ≤ a.migrationDate

/-- The durable file holds exactly the serialized in-memory state. -/
def flushed (st : DatabaseManager) : Prop :=
  st.storage = .valid st.data

/-- A raw record with every optional field absent and every flag falsy,
used as the base of concrete test records. -/
def baseRaw : BagsApiToken :=
  { tokenAddress := none, name := none, symbol := none, createdAt := none,
    migratedAt := none, launchedAt := none, bondingCompletedAt := none,
    completedAt := none, marketCap := none, price := none, volume24h := none,
    totalRaised := none, fundingGoal := none, bondingCurve := none,
    migrated := false, launched := false }

/-- A canonical token with neutral field values, used as the base of concrete
test tokens. -/
def baseToken : MigratedToken :=
  { id := "id0", name := "Alpha", symbol := "ALP", contractAddress := none,
    migrationDate := 0, createdAt := 0, toChain := "Bags.fm Launch",
    marketCap := none, price := none, volume24h := none, totalRaised := none,
    bondingDuration := none, bondingCompleted := false }

/-- A recorded migration carrying the mixed-case contract address `AbCd`. -/
def entryAbCd : MigratedToken :=
  { baseToken with contractAddress := some "AbCd" }

/-- A token with the same contract address as `entryAbCd` up to letter case,
but a different id, symbol and name. -/
def tokenCaseVariant : MigratedToken :=
  { baseToken with
    id := "id2", symbol := "OTH", name := "Other",
    contractAddress := some "aBcD" }

/-- A ledger whose only entry is `entryAbCd`. -/
def ledgerAbCd : DatabaseData := ⟨[entryAbCd], 0⟩

/-- A recorded migration with contract address `OLDMINT`. -/
def entryOld : MigratedToken :=
  { baseToken with contractAddress := some "OLDMINT" }

/-- A token with a fresh contract address `FRESHMINT` matching no ledger entry
by address, but sharing symbol and name with `entryOld`. -/
def tokenFresh : MigratedToken :=
  { baseToken with id := "fresh", contractAddress := some "FRESHMINT" }

/-- A manager whose ledger holds exactly `entryOld`, flushed. -/
def managerOld : DatabaseManager := ⟨⟨[entryOld], 0⟩, .valid ⟨[entryOld], 0⟩⟩

/-- A raw record with a launch timestamp and a creation timestamp but none of
the higher-priority completion fields. -/
def rawLaunchOnly : BagsApiToken :=
  { baseRaw with launchedAt := some 111, createdAt := some 50 }

/-- A raw record created at instant 1000 whose migration timestamp is exactly
two hours (7 200 000 ms) later. -/
def rawTwoHours : BagsApiToken :=
  { baseRaw with createdAt := some 1000, migratedAt := some 7201000 }

/-- A raw record with market cap 50 000, no price and no bonding-completion
signal: it does not qualify. -/
def rawLowMcap : BagsApiToken :=
  { baseRaw with marketCap := some 50000 }

/-- A raw record lacking `tokenAddress`, with a symbol and a name. -/
def rawAddressless : BagsApiToken :=
  { baseRaw with symbol := some "ALP", name := some "Alpha Token" }

/-- Extensional description of tier 1. -/
theorem existsByContract_iff (d : DatabaseData) (t : MigratedToken) :
    existsByContract d t = true ↔
      ∃ ca, t.contractAddress = some ca ∧
        ∃ m ∈ d.migrations, ∃ mca, m.contractAddress = some mca ∧
          strLower mca = strLower ca := by
  unfold existsByContract
  cases h : t.contractAddress with
  | none => simp
  | some ca =>
    simp only [List.any_eq_true, Option.some.injEq]
    constructor
    · rintro ⟨m, hm, hmatch⟩
      cases hmc : m.contractAddress with
      | none => rw [hmc] at hmatch; exact absurd hmatch (by simp)
      | some mca =>
        rw [hmc] at hmatch
        exact ⟨ca, rfl, m, hm, mca, hmc, by simpa using hmatch⟩
    · rintro ⟨ca', hca', m, hm, mca, hmc, heq⟩
      subst hca'
      exact ⟨m, hm, by rw [hmc]; simpa using heq⟩

/-- Extensional description of tier 2. -/
theorem existsBySymbolName_iff (d : DatabaseData) (t : MigratedToken) :
    existsBySymbolName d t = true ↔
      ∃ m ∈ d.migrations, strLower m.symbol = strLower t.symbol ∧
        strLower m.name = strLower t.name := by
  unfold existsBySymbolName
  simp [List.any_eq_true]

/-- Extensional description of tier 3. -/
theorem existsById_iff (d : DatabaseData) (t : MigratedToken) :
    existsById d t = true ↔ ∃ m ∈ d.migrations, m.id = t.id := by
  unfold existsById
  simp [List.any_eq_true]

/-- Extensional description of the whole tiered check. -/
theorem migrationExistsByDetails_iff (d : DatabaseData) (t : MigratedToken) :
    migrationExistsByDetails d t = true ↔
      ((∃ ca, t.contractAddress = some ca ∧
          ∃ m ∈ d.migrations, ∃ mca, m.contractAddress = some mca ∧
            strLower mca = strLower ca) ∨
       (∃ m ∈ d.migrations, strLower m.symbol = strLower t.symbol ∧
          strLower m.name = strLower t.name) ∨
       (∃ m ∈ d.migrations, m.id = t.id)) := by
  unfold migrationExistsByDetails
  rw [Bool.or_eq_true, Bool.or_eq_true, existsByContract_iff,
    existsBySymbolName_iff, existsById_iff]
  exact or_assoc

/-- A ledger entry with the token's id makes the tiered check hit. -/
theorem migrationExists_of_mem_id {d : DatabaseData} {t m : MigratedToken}
    (hm : m ∈ d.migrations) (hid : m.id = t.id) :
    migrationExistsByDetails d t = true :=
  (migrationExistsByDetails_iff d t).2 (Or.inr (Or.inr ⟨m, hm, hid⟩))

/-- The tiered check is monotone under growing the set of ledger entries. -/
theorem migrationExists_mono {d d' : DatabaseData} {t : MigratedToken}
    (hsub : ∀ m ∈ d.migrations, m ∈ d'.migrations)
    (h : migrationExistsByDetails d t = true) :
    migrationExistsByDetails d' t = true := by
  rw [migrationExistsByDetails_iff] at h ⊢
  rcases h with ⟨ca, hca, m, hm, rest⟩ | ⟨m, hm, rest⟩ | ⟨m, hm, rest⟩
  · exact Or.inl ⟨ca, hca, m, hsub m hm, rest⟩
  · exact Or.inr (Or.inl ⟨m, hsub m hm, rest⟩)
  · exact Or.inr (Or.inr ⟨m, hsub m hm, rest⟩)

/-- The migrations list produced by `saveMigration`. -/
theorem saveMigration_migrations (now : Nat) (st : DatabaseManager)
    (t : MigratedToken) :
    (saveMigration now st t).data.migrations =
      ((st.data.migrations.filter fun m => !(m.id == t.id)) ++ [t]).mergeSort
        laterMigrationFirst := rfl

/-- Membership in the ledger after `saveMigration`. -/
theorem mem_saveMigration_iff (now : Nat) (st : DatabaseManager)
    (t m : MigratedToken) :
    m ∈ (saveMigration now st t).data.migrations ↔
      (m ∈ st.data.migrations ∧ m.id ≠ t.id) ∨ m = t := by
  rw [saveMigration_migrations]
  simp [List.mem_mergeSort, List.mem_filter, List.mem_append]

/-- The saved token itself is in the ledger after `saveMigration`. -/
theorem self_mem_saveMigration (now : Nat) (st : DatabaseManager)
    (t : MigratedToken) : t ∈ (saveMigration now st t).data.migrations :=
  (mem_saveMigration_iff now st t t).2 (Or.inr rfl)

/-- When the tiered check missed, no ledger entry shares the token's id, so
`saveMigration` drops nothing: the prior entries all survive. -/
theorem mem_saveMigration_of_not_exists {now : Nat} {st : DatabaseManager}
    {t : MigratedToken} (hex : migrationExistsByDetails st.data t = false)
    {m : MigratedToken} (hm : m ∈ st.data.migrations) :
    m ∈ (saveMigration now st t).data.migrations := by
  rw [mem_saveMigration_iff]
  refine Or.inl ⟨hm, fun hid => ?_⟩
  rw [← Bool.not_eq_true, migrationExistsByDetails_iff] at hex
  exact hex (Or.inr (Or.inr ⟨m, hm, hid⟩))

/-- Every entry present when the loop starts is still present when it ends. -/
theorem checkLoop_mem_mono (now : Nat) (launches : List MigratedToken) :
    ∀ (st : DatabaseManager) (m : MigratedToken), m ∈ st.data.migrations →
      m ∈ (checkLoop now st launches).1.data.migrations := by
  induction launches with
  | nil => intro st m hm; exact hm
  | cons r rest ih =>
    intro st m hm
    by_cases hex : migrationExistsByDetails st.data r = true
    · rw [checkLoop, if_pos hex]
      exact ih st m hm
    · rw [checkLoop, if_neg hex]
      exact ih _ m (mem_saveMigration_of_not_exists (Bool.not_eq_true _ ▸ hex) hm)

/-- After a run of the loop, every processed launch is recognized as already
recorded by the tiered check. -/
theorem checkLoop_post_exists (now : Nat) (launches : List MigratedToken) :
    ∀ (st : DatabaseManager) (t : MigratedToken), t ∈ launches →
      migrationExistsByDetails (checkLoop now st launches).1.data t = true := by
  induction launches with
  | nil => intro st t ht; cases ht
  | cons r rest ih =>
    intro st t ht
    by_cases hex : migrationExistsByDetails st.data r = true
    · rw [checkLoop, if_pos hex]
      rcases List.mem_cons.1 ht with rfl | htr
      · exact migrationExists_mono (fun m hm => checkLoop_mem_mono now rest st m hm) hex
      · exact ih st t htr
    · rw [checkLoop, if_neg hex]
      rcases List.mem_cons.1 ht with rfl | htr
      · refine migrationExists_of_mem_id ?_ rfl
        exact checkLoop_mem_mono now rest _ t (self_mem_saveMigration now st t)
      · exact ih _ t htr

/-- When every launch is already recognized, the loop changes nothing and
collects no token to notify. -/
theorem checkLoop_all_skip (now : Nat) (launches : List MigratedToken)
    (st : DatabaseManager)
    (h : ∀ t ∈ launches, migrationExistsByDetails st.data t = true) :
    checkLoop now st launches = (st, []) := by
  induction launches with
  | nil => rfl
  | cons r rest ih =>
    rw [checkLoop, if_pos (h r (List.mem_cons_self r rest))]
    exact ih fun t ht => h t (List.mem_cons_of_mem r ht)

/-- C1: Cycle idempotence — for any fixed sequence of fetched tokens, running
the full check cycle (exists-check, record, notify for each token in order)
twice in sequence produces zero new notifications on the second run, and the
ledger state after the second run equals the ledger state after the first
run. -/
theorem claimC1_cycle_idempotence (now1 now2 : Nat) (st : DatabaseManager)
    (launches : List MigratedToken) :
    checkForNewMigrations now2 (checkForNewMigrations now1 st launches).1
        launches
      = ((checkForNewMigrations now1 st launches).1, []) := by
  unfold checkForNewMigrations
  exact checkLoop_all_skip now2 launches _
    fun t ht => checkLoop_post_exists now1 launches st t ht

/-- C2: Tiered identity matching — `migrationExistsByDetails` returns true iff
some ledger entry matches one of the three tiers (case-insensitive contract
address on both sides; case-insensitive symbol and name; id equality), and in
particular two records whose contract addresses differ only in letter case are
recognized as the same identity. -/
theorem claimC2_tiered_identity_matching (d : DatabaseData) (t : MigratedToken) :
    (migrationExistsByDetails d t = true ↔
      ((∃ ca, t.contractAddress = some ca ∧
          ∃ m ∈ d.migrations, ∃ mca, m.contractAddress = some mca ∧
            strLower mca = strLower ca) ∨
       (∃ m ∈ d.migrations, strLower m.symbol = strLower t.symbol ∧
          strLower m.name = strLower t.name) ∨
       (∃ m ∈ d.migrations, m.id = t.id))) ∧
    (∀ m ∈ d.migrations, ∀ ca mca, t.contractAddress = some ca →
      m.contractAddress = some mca → strLower mca = strLower ca →
      migrationExistsByDetails d t = true) := by
  refine ⟨migrationExistsByDetails_iff d t, ?_⟩
  intro m hm ca mca hca hmca hlow
  exact (migrationExistsByDetails_iff d t).2 (Or.inl ⟨ca, hca, m, hm, mca, hmca, hlow⟩)

/-- Witness for C2: a ledger entry with contract address `AbCd` makes the
check hit for a token with contract address `aBcD` (same letters, different
case) even though that token has a different id, symbol and name. -/
theorem claimC2_witness :
    migrationExistsByDetails ledgerAbCd tokenCaseVariant = true :=
  (claimC2_tiered_identity_matching ledgerAbCd tokenCaseVariant).2
    entryAbCd (by simp [ledgerAbCd]) "aBcD" "AbCd" rfl rfl (by decide)

/-- C10: the symbol+name identity tier is applied to every token, not only to
tokens lacking a contract address — whenever some ledger entry shares the
token's symbol and name case-insensitively, `migrationExistsByDetails` returns
true (no assumption on the token's contract address), and the cycle therefore
neither records nor notifies the token. -/
theorem claimC10_symbol_name_tier_always_applies (now : Nat)
    (st : DatabaseManager) (t m : MigratedToken) (hm : m ∈ st.data.migrations)
    (hsym : strLower m.symbol = strLower t.symbol)
    (hname : strLower m.name = strLower t.name) :
    migrationExistsByDetails st.data t = true ∧ checkLoop now st [t] = (st, []) := by
  have hex : migrationExistsByDetails st.data t = true :=
    (migrationExistsByDetails_iff st.data t).2 (Or.inr (Or.inl ⟨m, hm, hsym, hname⟩))
  refine ⟨hex, checkLoop_all_skip now [t] st ?_⟩
  intro x hx
  rcases List.mem_singleton.1 hx with rfl
  exact hex

/-- Witness for C10: the ledger holds an entry with contract address
`OLDMINT`; a token carrying the fresh contract address `FRESHMINT` (matching
no entry by address) but the same symbol and name is judged a duplicate and
the cycle records and notifies nothing. -/
theorem claimC10_witness :
    migrationExistsByDetails managerOld.data tokenFresh = true ∧
      checkLoop 7 managerOld [tokenFresh] = (managerOld, []) :=
  claimC10_symbol_name_tier_always_applies 7 managerOld tokenFresh entryOld
    (by simp [managerOld]) rfl rfl

/-- The sort comparator is transitive. -/
theorem laterMigrationFirst_trans (a b c : MigratedToken)
    (hab : laterMigrationFirst a b) (hbc : laterMigrationFirst b c) :
    laterMigrationFirst a c := by
  simp only [laterMigrationFirst, decide_eq_true_eq] at *
  exact le_trans hbc hab

/-- The sort comparator is total. -/
theorem laterMigrationFirst_total (a b : MigratedToken) :
    laterMigrationFirst a b || laterMigrationFirst b a := by
  simp only [laterMigrationFirst, Bool.or_eq_true, decide_eq_true_eq]
  exact Nat.le_total b.migrationDate a.migrationDate

/-- The ledger is sorted by `migrationDate` descending after `saveMigration`,
whatever the prior state. -/
theorem sorted_saveMigration (now : Nat) (st : DatabaseManager)
    (t : MigratedToken) :
    sortedByDateDesc (saveMigration now st t).data.migrations := by
  rw [saveMigration_migrations, sortedByDateDesc]
  have h := List.sorted_mergeSort laterMigrationFirst_trans
    (fun a b => laterMigrationFirst_total a b)
    ((st.data.migrations.filter fun m => !(m.id == t.id)) ++ [t])
  exact h.imp fun hab => by
    simpa [laterMigrationFirst, decide_eq_true_eq] using hab

/-- Id-uniqueness of the ledger is preserved by `saveMigration`. -/
theorem uniqueIds_saveMigration (now : Nat) (st : DatabaseManager)
    (t : MigratedToken) (h : uniqueIds st.data.migrations) :
    uniqueIds (saveMigration now st t).data.migrations := by
  rw [saveMigration_migrations, uniqueIds]
  have hperm := List.mergeSort_perm
    ((st.data.migrations.filter fun m => !(m.id == t.id)) ++ [t])
    laterMigrationFirst
  refine (hperm.pairwise_iff fun hab => ?_).2 ?_
  · exact fun h' => hab h'.symm
  · rw [List.pairwise_append]
    refine ⟨List.Pairwise.sublist (List.filter_sublist _) h,
      List.pairwise_singleton _ _, ?_⟩
    intro a ha b hb
    rcases List.mem_singleton.1 hb with rfl
    have := (List.mem_filter.1 ha).2
    simpa using this

/-- C7: Record upsert invariant — `saveMigration` removes any existing entry
sharing the token's id before inserting the new one, so after every
`saveMigration`, `clearDatabase` or `initialize` operation (the latter loading
either corrupt storage or a snapshot the system itself flushed) the ledger
contains at most one entry per id and its entries are sorted by
`migrationDate` descending, and the full state is flushed to durable storage
before the operation returns. -/
theorem claimC7_record_upsert_invariant (now : Nat) (st : DatabaseManager)
    (t : MigratedToken) (c : StorageContent)
    (hu : uniqueIds st.data.migrations)
    (hc : c = .missing ∨ c = .malformed ∨
      ∃ d, c = .valid d ∧ uniqueIds d.migrations ∧ sortedByDateDesc d.migrations) :
    ((∀ m ∈ (saveMigration now st t).data.migrations, m.id = t.id → m = t) ∧
      t ∈ (saveMigration now st t).data.migrations ∧
      uniqueIds (saveMigration now st t).data.migrations ∧
      sortedByDateDesc (saveMigration now st t).data.migrations ∧
      flushed (saveMigration now st t)) ∧
    (uniqueIds (clearDatabase now st).data.migrations ∧
      sortedByDateDesc (clearDatabase now st).data.migrations ∧
      flushed (clearDatabase now st)) ∧
    (∀ res, initDatabase true now c = .ok res →
      uniqueIds res.data.migrations ∧ sortedByDateDesc res.data.migrations ∧
        flushed res) := by
  refine ⟨⟨?_, self_mem_saveMigration now st t,
      uniqueIds_saveMigration now st t hu, sorted_saveMigration now st t, rfl⟩,
    ⟨List.Pairwise.nil, List.Pairwise.nil, rfl⟩, ?_⟩
  · intro m hm hid
    rcases (mem_saveMigration_iff now st t m).1 hm with ⟨_, hne⟩ | heq
    · exact absurd hid hne
    · exact heq
  · intro res hres
    rcases hc with rfl | rfl | ⟨d, rfl, hud, hsd⟩
    · cases hres
      exact ⟨List.Pairwise.nil, List.Pairwise.nil, rfl⟩
    · cases hres
      exact ⟨List.Pairwise.nil, List.Pairwise.nil, rfl⟩
    · cases hres
      exact ⟨hud, hsd, rfl⟩

/-- Witness for C7: saving `tokenFresh` into the one-entry ledger `managerOld`
keeps the new token in the ledger and leaves the durable file holding exactly
the new state. -/
theorem claimC7_witness :
    tokenFresh ∈ (saveMigration 3 managerOld tokenFresh).data.migrations ∧
      flushed (saveMigration 3 managerOld tokenFresh) ∧
      uniqueIds (clearDatabase 3 managerOld).data.migrations := by
  have h := claimC7_record_upsert_invariant 3 managerOld tokenFresh .missing
    (by simp [managerOld, uniqueIds]) (Or.inl rfl)
  exact ⟨h.1.2.1, h.1.2.2.2.2, h.2.1.1⟩

/-- C8: Corrupt-storage recovery — for missing or unparsable durable-storage
content (and a writable storage location), `initialize` yields an empty
in-memory ledger state, writes a fresh valid snapshot to storage, and returns
normally instead of raising to the caller. -/
theorem claimC8_corrupt_storage_recovery (now : Nat) (c : StorageContent)
    (hbad : c = .missing ∨ c = .malformed) :
    initDatabase true now c =
      .ok { data := { migrations := [], lastUpdated := now },
            storage := .valid { migrations := [], lastUpdated := now } } := by
  rcases hbad with rfl | rfl <;> rfl

/-- Witness for C8: initializing against a missing durable file at time 5. -/
theorem claimC8_witness :
    initDatabase true 5 .missing =
      .ok { data := { migrations := [], lastUpdated := 5 },
            storage := .valid { migrations := [], lastUpdated := 5 } } :=
  claimC8_corrupt_storage_recovery 5 .missing (Or.inl rfl)

/-- C5: Date-field priority — the normalized `migrationDate` is resolved as
the first present field in the exact order bonding-curve completion timestamp,
migration timestamp, launch timestamp, alternate completion-timestamp fields,
record creation timestamp, then the current time (shown by equating the
source's if/else-if chain with the spec's priority-list resolution, for both
parser variants); in particular a record with a launch timestamp and a
creation timestamp but none of the higher-priority fields resolves to the
launch timestamp. -/
theorem claimC5_date_field_priority (now : Nat) (r : BagsApiToken) :
    resolveMigrationDate now r = specDatePriority now r ∧
    (parseOneToken now r).migrationDate = resolveMigrationDate now r ∧
    (∀ env, (parseOneTokenFM env r).migrationDate =
      resolveMigrationDate env.now r) ∧
    (∀ l c, bcCompletedAt r = none → r.migratedAt = none →
      r.launchedAt = some l → r.createdAt = some c →
      resolveMigrationDate now r = l) := by
  refine ⟨?_, rfl, fun env => rfl, ?_⟩
  · unfold resolveMigrationDate specDatePriority
    rcases hb : bcCompletedAt r with _ | d0 <;>
      rcases hm : r.migratedAt with _ | d1 <;>
      rcases hl : r.launchedAt with _ | d2 <;>
      rcases hbc : r.bondingCompletedAt with _ | d3 <;>
      rcases hc : r.completedAt with _ | d4 <;>
      rcases hcr : r.createdAt with _ | d5 <;>
      simp [hb, hm, hl, hbc, hc, hcr]
  · intro l c h1 h2 h3 _
    simp [resolveMigrationDate, h1, h2, h3]

/-- Witness for C5: `rawLaunchOnly` has `launchedAt = 111` and
`createdAt = 50` and resolves its migration date to 111. -/
theorem claimC5_witness :
    resolveMigrationDate 9999 rawLaunchOnly = 111 ∧
      resolveMigrationDate 9999 rawLaunchOnly = specDatePriority 9999 rawLaunchOnly :=
  ⟨(claimC5_date_field_priority 9999 rawLaunchOnly).2.2.2 111 50 rfl rfl rfl rfl,
   (claimC5_date_field_priority 9999 rawLaunchOnly).1⟩

/-- C6: Bonding duration — the normalized token's `bondingDuration` is present
iff its migration date is strictly greater than its creation date, and when
present it equals their difference in hours and is strictly positive; the
`fetchMigrations` variant computes the same quantity. -/
theorem claimC6_bonding_duration (now : Nat) (r : BagsApiToken) :
    ((parseOneToken now r).bondingDuration.isSome = true ↔
      (parseOneToken now r).createdAt < (parseOneToken now r).migrationDate) ∧
    (∀ q, (parseOneToken now r).bondingDuration = some q →
      q = (((parseOneToken now r).migrationDate : ℚ) -
            ((parseOneToken now r).createdAt : ℚ)) / (1000 * 60 * 60) ∧
        0 < q) ∧
    (∀ env, (parseOneTokenFM env r).bondingDuration =
      bondingDurationOf (r.createdAt.getD env.now) (resolveMigrationDate env.now r)) := by
  have hbd : (parseOneToken now r).bondingDuration =
      bondingDurationOf (r.createdAt.getD now) (resolveMigrationDate now r) := rfl
  refine ⟨?_, ?_, fun env => rfl⟩
  · rw [hbd]
    show (bondingDurationOf (r.createdAt.getD now) (resolveMigrationDate now r)).isSome
        = true ↔ r.createdAt.getD now < resolveMigrationDate now r
    unfold bondingDurationOf
    by_cases h : r.createdAt.getD now < resolveMigrationDate now r <;> simp [h]
  · intro q hq
    rw [hbd] at hq
    unfold bondingDurationOf at hq
    show q = ((resolveMigrationDate now r : ℚ) - (r.createdAt.getD now : ℚ)) /
        (1000 * 60 * 60) ∧ 0 < q
    split at hq
    · rename_i h
      rw [Option.some.injEq] at hq
      subst hq
      refine ⟨rfl, div_pos ?_ (by norm_num)⟩
      rw [sub_pos]
      exact_mod_cast h
    · exact absurd hq (by simp)

/-- Witness for C6: `rawTwoHours` is created at 1000 and migrates at 7201000
(two hours later); its bonding duration is present and positive, with value
2 hours. -/
theorem claimC6_witness :
    (parseOneToken 0 rawTwoHours).bondingDuration.isSome = true ∧
      (parseOneToken 0 rawTwoHours).bondingDuration = some 2 ∧ (0 : ℚ) < 2 := by
  have h := claimC6_bonding_duration 0 rawTwoHours
  have hval : (parseOneToken 0 rawTwoHours).bondingDuration = some 2 := by
    show bondingDurationOf 1000 7201000 = some 2
    norm_num [bondingDurationOf]
  exact ⟨h.1.mpr (by decide), hval, (h.2.1 2 hval).2⟩

/-- C3 (amended): in the `getNewMigrations` parser a normalized token is
included in the output iff a bonding-completion signal was present or its
derived market cap is at least the 100 000 threshold (inclusive: exactly
100 000 qualifies, strictly below does not without a bonding signal), and
non-qualifying records are skipped rather than causing an error; the
`fetchMigrations` parser applies no qualification filter and includes every
successfully parsed record. -/
theorem claimC3_qualification_predicate (now : Nat) (rs : List BagsApiToken) :
    parseTokenLaunches now rs =
      (rs.filter qualifiesForNotify).map (parseOneToken now) ∧
    (∀ r, qualifiesForNotify r =
      (hasCompletedBonding r ||
        hasCrossed100kMcap (deriveMarketCap r.marketCap r.price))) ∧
    hasCrossed100kMcap (some 100000) = true ∧
    (∀ q : ℚ, 0 ≤ q → q < 100000 → hasCrossed100kMcap (some q) = false) ∧
    (∀ env i, (parseTokenLaunchesFM env i rs).length = rs.length) := by
  refine ⟨?_, fun r => rfl, by norm_num [hasCrossed100kMcap], ?_, ?_⟩
  · induction rs with
    | nil => rfl
    | cons r rest ih =>
      simp only [parseTokenLaunches, List.filter_cons]
      by_cases h : qualifiesForNotify r <;> simp [h, ih]
  · intro q _ hlt
    simp [hasCrossed100kMcap, not_le.2 hlt]
  · intro env i
    induction rs generalizing i with
    | nil => rfl
    | cons r rest ih => simp [parseTokenLaunchesFM, ih]

/-- Counterexample for C3 as stated: `rawLowMcap` (market cap 50 000, no
bonding signal) does not qualify, yet the `fetchMigrations` variant of the
parser — one of the two parsers the claim covers — includes it in its
output. -/
theorem claimC3_counterexample :
    parseTokenLaunchesFM (fun _ => (⟨0, "r"⟩ : JsEnv)) 0 [rawLowMcap] =
        [parseOneTokenFM ⟨0, "r"⟩ rawLowMcap] ∧
      qualifiesForNotify rawLowMcap = false := by
  refine ⟨rfl, ?_⟩
  norm_num [qualifiesForNotify, hasCompletedBonding, hasCrossed100kMcap,
    deriveMarketCap, jsTruthyQ, rawLowMcap, baseRaw, bcCompleted]

/-- Witness for C3: the `getNewMigrations` parser drops `rawLowMcap`; a market
cap of exactly 100 000 qualifies while 99 999 does not. -/
theorem claimC3_witness :
    parseTokenLaunches 0 [rawLowMcap] = [] ∧
      hasCrossed100kMcap (some 100000) = true ∧
      hasCrossed100kMcap (some 99999) = false := by
  have h := claimC3_qualification_predicate 0 [rawLowMcap]
  refine ⟨?_, h.2.2.1, h.2.2.2.1 99999 (by norm_num) (by norm_num)⟩
  rw [h.1]
  norm_num [qualifiesForNotify, hasCompletedBonding, hasCrossed100kMcap,
    deriveMarketCap, jsTruthyQ, rawLowMcap, baseRaw, bcCompleted, List.filter]

/-- C4 (amended): the raw `marketCap` is kept when truthy (present and
nonzero); when falsy (absent or zero) and `price` is truthy, the market cap is
derived as `price × 1 000 000 000` (price 0.0001 yields 100 000); when both
are falsy the raw value is kept; and the derived value is the one stored on
the normalized token and fed to the qualification check. -/
theorem claimC4_marketcap_derivation (mc p : Option ℚ) (now : Nat)
    (r : BagsApiToken) (env : JsEnv) :
    (jsTruthyQ mc = false → jsTruthyQ p = true →
      deriveMarketCap mc p = p.map (· * 1000000000)) ∧
    (jsTruthyQ mc = true → deriveMarketCap mc p = mc) ∧
    (jsTruthyQ p = false → deriveMarketCap mc p = mc) ∧
    deriveMarketCap none (some (1 / 10000)) = some 100000 ∧
    (parseOneToken now r).marketCap = deriveMarketCap r.marketCap r.price ∧
    (parseOneTokenFM env r).marketCap = deriveMarketCap r.marketCap r.price ∧
    qualifiesForNotify r =
      (hasCompletedBonding r ||
        hasCrossed100kMcap (deriveMarketCap r.marketCap r.price)) := by
  refine ⟨?_, ?_, ?_, by norm_num [deriveMarketCap, jsTruthyQ], rfl, rfl, rfl⟩
  · intro h1 h2
    simp [deriveMarketCap, h1, h2]
  · intro h
    simp [deriveMarketCap, h]
  · intro h
    simp [deriveMarketCap, h]

/-- Counterexample for C4 as stated: a record whose `marketCap` field is
present (with value 0) and whose `price` is 0.0001 does not keep its
`marketCap` "taken directly" — the code's truthiness test overwrites it with
the derived 100 000. -/
theorem claimC4_counterexample :
    deriveMarketCap (some 0) (some (1 / 10000)) = some 100000 ∧
      deriveMarketCap (some 0) (some (1 / 10000)) ≠ some 0 := by
  have h : deriveMarketCap (some 0) (some (1 / 10000)) = some 100000 := by
    norm_num [deriveMarketCap, jsTruthyQ]
  refine ⟨h, ?_⟩
  rw [h]
  norm_num

/-- Witness for C4: the derivation fires for an absent market cap with price
0.0001, and a truthy market cap of 5 is taken directly. -/
theorem claimC4_witness :
    deriveMarketCap none (some (1 / 10000)) =
        (some (1 / 10000 : ℚ)).map (· * 1000000000) ∧
      deriveMarketCap (some 5) (some 7) = some 5 :=
  ⟨(claimC4_marketcap_derivation none (some (1 / 10000)) 0 baseRaw ⟨0, "a"⟩).1
      (by norm_num [jsTruthyQ]) (by norm_num [jsTruthyQ]),
   (claimC4_marketcap_derivation (some 5) (some 7) 0 baseRaw ⟨0, "a"⟩).2.1
      (by norm_num [jsTruthyQ])⟩

/-- C9 (amended): in the `getNewMigrations` parser the id of an address-less
record is synthesized deterministically from the record's symbol and name —
independent of the current time and equal across records sharing symbol and
name — and is non-empty; the `fetchMigrations` parser instead synthesizes the
fallback id from the invocation time and a random draw. -/
theorem claimC9_deterministic_synthesized_id (r r2 : BagsApiToken)
    (now now2 : Nat) (h : r.tokenAddress = none) (h2 : r2.tokenAddress = none)
    (hsym : r.symbol = r2.symbol) (hname : r.name = r2.name) :
    (parseOneToken now r).id = (parseOneToken now2 r2).id ∧
    (parseOneToken now r).id = synthesizedId r ∧
    (parseOneToken now r).id ≠ "" ∧
    (∀ env, (parseOneTokenFM env r).id =
      "token-" ++ toString env.now ++ "-" ++ env.rnd) := by
  have hid : (parseOneToken now r).id = synthesizedId r := by
    simp [parseOneToken, h]
  have hid2 : (parseOneToken now2 r2).id = synthesizedId r2 := by
    simp [parseOneToken, h2]
  have hsyn : synthesizedId r = synthesizedId r2 := by
    unfold synthesizedId
    rw [hsym, hname]
  refine ⟨by rw [hid, hid2, hsyn], hid, ?_, fun env => by simp [parseOneTokenFM, h]⟩
  rw [hid]
  unfold synthesizedId stripNonAlnum
  intro hcontra
  have h0 : (("token-" ++ jsStr r.symbol ++ "-" ++ jsStr r.name).data.filter
      Char.isAlphanum) = ([] : List Char) := congrArg String.data hcontra
  have hmem : 't' ∈ ("token-" ++ jsStr r.symbol ++ "-" ++ jsStr r.name).data.filter
      Char.isAlphanum := by
    apply List.mem_filter.2
    refine ⟨?_, by decide⟩
    rw [String.data_append, String.data_append, String.data_append]
    apply List.mem_append_left
    apply List.mem_append_left
    apply List.mem_append_left
    decide
  rw [h0] at hmem
  exact absurd hmem (List.not_mem_nil _)

/-- Counterexample for C9 as stated: normalizing the same address-less record
`rawAddressless` twice through the `fetchMigrations` parser — one of the two
normalizers the claim covers — at times 0 and 1 yields two different ids, so
that variant's synthesized id is not a deterministic function of symbol and
name. -/
theorem claimC9_counterexample :
    (parseOneTokenFM ⟨0, "a"⟩ rawAddressless).id ≠
      (parseOneTokenFM ⟨1, "a"⟩ rawAddressless).id := by
  decide

/-- Witness for C9: normalizing `rawAddressless` through the
`getNewMigrations` parser at times 5 and 99 yields the same non-empty id. -/
theorem claimC9_witness :
    (parseOneToken 5 rawAddressless).id = (parseOneToken 99 rawAddressless).id ∧
      (parseOneToken 5 rawAddressless).id ≠ "" := by
  have h := claimC9_deterministic_synthesized_id rawAddressless rawAddressless
    5 99 rfl rfl rfl rfl
  exact ⟨h.1, h.2.2.1⟩
